import Mathlib

/-!
# tempfile: server wiring and template service

A shallow embedding of `cmd/server/main.go` (the Fiber application's body
limit and the route table built by `setupRoutes`) and of
`internal/services/template.go` (`TemplateService.Initialize`, `GetMode`).
The upload, retrieval and cleanup services are called by `main` but their
code is not part of the embedded sources; they are modelled from the
specification in a separate section.
-/

set_option autoImplicit false

namespace Tempfile

/-! ## Configuration -/

/-- The fields of `config.Config` that the embedded code reads.
`MaxFileSize` is an `int64` (it is passed to `formatBytes(bytes int64)`). -/
structure Config where
  MaxFileSize : Int
  FileExpiryHours : Int
  EnableWebUI : Bool
  Debug : Bool
  TemplatesDir : String
  PublicURL : String
  deriving DecidableEq, Repr

/-! ## `main`: the Fiber body limit -/

/-- Go's conversion of an integer to the platform type `int` of width `w` bits
(32 or 64): the value is truncated to `w` bits and read as two's complement. -/
def toInt (w : Nat) (x : Int) : Int :=
  (x + 2 ^ (w - 1)) % 2 ^ w - 2 ^ (w - 1)

/-- A value fits in a `w`-bit `int` when it lies in `[-2^(w-1), 2^(w-1))`. -/
def fitsInt (w : Nat) (x : Int) : Prop :=
  -(2 ^ (w - 1) : Int) ≤ x ∧ x < 2 ^ (w - 1)

instance (w : Nat) (x : Int) : Decidable (fitsInt w x) := by
  unfold fitsInt; infer_instance

/-- The `BodyLimit` argument that `main` hands to `fiber.New`:
`int(cfg.MaxFileSize)`. This is the configured value, not yet the limit the
application enforces (see `appBodyLimit`). -/
def bodyLimit (w : Nat) (cfg : Config) : Int :=
  toInt w cfg.MaxFileSize

/-- Fiber's `DefaultBodyLimit`, 4 MiB. -/
def fiberDefaultBodyLimit : Int :=
  4 * 1024 * 1024

/-- The body limit of the application `fiber.New` returns to `main`: Fiber
replaces a `BodyLimit` of zero by its default and keeps any other value. -/
def appBodyLimit (w : Nat) (cfg : Config) : Int :=
  if bodyLimit w cfg = 0 then fiberDefaultBodyLimit else bodyLimit w cfg

/-- The application refuses a request before any handler runs: a positive
limit refuses every body larger than it, a limit that is not positive refuses
no body. -/
def refusesBody (limit : Int) (bodySize : Nat) : Bool :=
  decide (0 < limit ∧ limit < (bodySize : Int))

/-! ## `setupRoutes`: the route table -/

/-- HTTP methods used by the route table. -/
inductive Method
  | GET
  | POST
  deriving DecidableEq, Repr

/-- The handler methods that `setupRoutes` binds. -/
inductive Handler
  | apiHealthCheck
  | apiUploadFile
  | webSuccessPage
  | webUploadPage
  | webUploadFileHandler
  | fileDownloadFile
  deriving DecidableEq, Repr

/-- One registered route. -/
structure Route where
  method : Method
  path : String
  handler : Handler
  deriving DecidableEq, Repr

/-- The application's route stack, in registration order. -/
abbrev App := List Route

/-- The call `app.Get(path, h)` appends a GET route to the stack. -/
def App.Get (app : App) (path : String) (h : Handler) : App :=
  app ++ [⟨Method.GET, path, h⟩]

/-- The call `app.Post(path, h)` appends a POST route to the stack. -/
def App.Post (app : App) (path : String) (h : Handler) : App :=
  app ++ [⟨Method.POST, path, h⟩]

/-- A `*handlers.WebHandler`; `none` is the nil pointer. -/
structure WebHandler where
  config : Config
  deriving DecidableEq, Repr

/-- The condition of the branch in `setupRoutes`:
`cfg.EnableWebUI && webHandler != nil`. -/
def webBranch (cfg : Config) (webHandler : Option WebHandler) : Bool :=
  cfg.EnableWebUI && webHandler.isSome

/-- The function `setupRoutes(app, cfg, apiHandler, webHandler, fileHandler)`. -/
def setupRoutes (app : App) (cfg : Config) (webHandler : Option WebHandler) : App :=
  let app := app.Get "/health" Handler.apiHealthCheck
  let app :=
    if cfg.EnableWebUI && webHandler.isSome then
      let app := app.Get "/success" Handler.webSuccessPage
      let app := app.Get "/" Handler.webUploadPage
      app.Post "/" Handler.webUploadFileHandler
    else
      app.Post "/" Handler.apiUploadFile
  app.Get "/:filename" Handler.fileDownloadFile

/-- The `webHandler` that `main` passes to `setupRoutes`: it stays nil unless
`cfg.EnableWebUI`, in which case it is the result of `handlers.NewWebHandler`. -/
def mainWebHandler (cfg : Config) : Option WebHandler :=
  if cfg.EnableWebUI then some ⟨cfg⟩ else none

/-! ### First-match dispatch -/

/-- Split a path at every `/`. -/
def splitSlash : List Char → List (List Char)
  | [] => [[]]
  | c :: cs =>
    match splitSlash cs with
    | [] => [[]]
    | seg :: rest => if c = '/' then [] :: seg :: rest else (c :: seg) :: rest

/-- Remove every `/` at the end of a path. -/
def trimRightSlash (p : List Char) : List Char :=
  (p.reverse.dropWhile (fun c => c == '/')).reverse

/-- Non-strict routing: a path longer than one character that ends in `/`
loses all its trailing slashes. -/
def stripTrailingSlash (p : List Char) : List Char :=
  if 1 < p.length ∧ p.getLast? = some '/' then trimRightSlash p else p

/-- One pattern segment against one path segment: a `:name` segment takes any
non-empty segment, a literal segment must be equal up to letter case. -/
def segMatches (pat seg : List Char) : Bool :=
  match pat with
  | ':' :: _ => !seg.isEmpty
  | _ => pat.map Char.toLower == seg.map Char.toLower

/-- Segment-wise match of a pattern against a path. -/
def segsMatch : List (List Char) → List (List Char) → Bool
  | [], [] => true
  | p :: ps, s :: ss => segMatches p s && segsMatch ps ss
  | _, _ => false

/-- A route pattern matches a request path, as the router does under the
options `main` leaves at their defaults (letter case ignored, trailing
slashes ignored). -/
def pathMatches (pattern path : String) : Bool :=
  segsMatch (splitSlash (stripTrailingSlash pattern.toList))
    (splitSlash (stripTrailingSlash path.toList))

/-- A route answers a request when method and path match. -/
def Route.answers (r : Route) (m : Method) (path : String) : Bool :=
  r.method == m && pathMatches r.path path

/-- First-match dispatch: the handler of the first route in registration
order that answers the request. -/
def dispatch (app : App) (m : Method) (path : String) : Option Handler :=
  (app.find? (fun r => r.answers m path)).map Route.handler

/-! ## `TemplateService` -/

/-- A parsed `*template.Template`: the named templates it holds. -/
structure Template where
  names : List String
  deriving DecidableEq, Repr

/-- An `embed.FS`: the files compiled into the binary. -/
structure EmbedFS where
  files : List String
  deriving DecidableEq, Repr

/-- The error of `os.Stat`: nil, an error for which `os.IsNotExist` holds,
or any other error. -/
inductive StatResult
  | ok
  | notExist
  | otherError
  deriving DecidableEq, Repr

/-- The function `os.IsNotExist` on the error of `os.Stat`. -/
def StatResult.IsNotExist : StatResult → Bool
  | StatResult.notExist => true
  | _ => false

/-- The pair `(*template.Template, error)` returned by `template.ParseGlob`
and `template.ParseFS`: a template with a nil error, or a nil template with
an error. -/
inductive ParseResult
  | parsed (t : Template)
  | failed (err : String)
  deriving DecidableEq, Repr

/-- The template component of the returned pair (`none` is nil). -/
def ParseResult.tmpl : ParseResult → Option Template
  | ParseResult.parsed t => some t
  | ParseResult.failed _ => none

/-- The error component of the returned pair (`none` is nil). -/
def ParseResult.err : ParseResult → Option String
  | ParseResult.parsed _ => none
  | ParseResult.failed e => some e

/-- The operating-system and library calls `Initialize` makes, as functions of
their arguments. -/
structure Env where
  getenv : String → String
  stat : String → StatResult
  pathJoin : String → String → String
  parseGlob : String → ParseResult
  parseFS : EmbedFS → String → ParseResult

/-- The lines `Initialize` writes to the log. -/
inductive LogLine
  | dirNotFound (dir : String)
  | filesystemFailed (err : String)
  | developmentMode (dir : String)
  | productionMode
  deriving DecidableEq, Repr

/-- The observable calls of `Initialize`, in order. -/
inductive Event
  | stat (dir : String)
  | parseGlob (pattern : String)
  | parseFS (fs : EmbedFS) (pattern : String)
  | log (line : LogLine)
  deriving DecidableEq, Repr

/-- The struct `TemplateService`. -/
structure TemplateService where
  config : Config
  templates : Option Template
  useFileSystem : Bool
  embeddedFS : EmbedFS
  deriving DecidableEq, Repr

/-- The function `NewTemplateService(cfg, embeddedFS)`. -/
def NewTemplateService (cfg : Config) (embeddedFS : EmbedFS) : TemplateService :=
  { config := cfg, templates := none, useFileSystem := false, embeddedFS := embeddedFS }

/-- What a call of `Initialize` leaves behind: the returned error (`none` is
nil), the service after the call, and the calls it made. -/
structure InitResult where
  err : Option String
  service : TemplateService
  trace : List Event
  deriving DecidableEq, Repr

/-- The method `(s *TemplateService) Initialize() error`. -/
def TemplateService.Initialize (env : Env) (s : TemplateService) : InitResult :=
  let s := { s with
    useFileSystem := s.config.Debug || env.getenv "USE_FILESYSTEM_ASSETS" == "true" }
  let tmpl : Option Template := none
  let trace : List Event := []
  let (s, tmpl, trace) :=
    if s.useFileSystem then
      let trace := trace ++ [Event.stat s.config.TemplatesDir]
      if (env.stat s.config.TemplatesDir).IsNotExist then
        ({ s with useFileSystem := false }, tmpl,
          trace ++ [Event.log (LogLine.dirNotFound s.config.TemplatesDir)])
      else
        let templatePattern := env.pathJoin s.config.TemplatesDir "*.html"
        let r := env.parseGlob templatePattern
        let trace := trace ++ [Event.parseGlob templatePattern]
        match r.err with
        | some e =>
          ({ s with useFileSystem := false }, r.tmpl,
            trace ++ [Event.log (LogLine.filesystemFailed e)])
        | none =>
          (s, r.tmpl, trace ++ [Event.log (LogLine.developmentMode s.config.TemplatesDir)])
    else (s, tmpl, trace)
  if !s.useFileSystem || tmpl.isNone then
    let r := env.parseFS s.embeddedFS "templates/*.html"
    let trace := trace ++ [Event.parseFS s.embeddedFS "templates/*.html"]
    match r.err with
    | some e =>
      { err := some ("failed to parse embedded templates: " ++ e), service := s, trace := trace }
    | none =>
      { err := none, service := { s with templates := r.tmpl },
        trace := trace ++ [Event.log LogLine.productionMode] }
  else
    { err := none, service := { s with templates := tmpl }, trace := trace }

/-- The method `(s *TemplateService) GetMode() string`. -/
def TemplateService.GetMode (s : TemplateService) : String :=
  if s.useFileSystem then "filesystem" else "embedded"

/-- The outcome of `template.ParseGlob` on the pattern `Initialize` builds. -/
def globResult (env : Env) (s : TemplateService) : ParseResult :=
  env.parseGlob (env.pathJoin s.config.TemplatesDir "*.html")

/-- The outcome of `template.ParseFS` on the embedded files. -/
def embeddedResult (env : Env) (s : TemplateService) : ParseResult :=
  env.parseFS s.embeddedFS "templates/*.html"

/-- Filesystem loading is enabled: `config.Debug`, or the environment variable
`USE_FILESYSTEM_ASSETS` equals `"true"`. -/
def fsEnabled (env : Env) (s : TemplateService) : Prop :=
  s.config.Debug = true ∨ env.getenv "USE_FILESYSTEM_ASSETS" = "true"

/-- The filesystem load succeeds: it is enabled, the stat of the templates
directory does not report not-exist, and `ParseGlob` returns no error. -/
def fsLoadOk (env : Env) (s : TemplateService) : Prop :=
  fsEnabled env s ∧ (env.stat s.config.TemplatesDir).IsNotExist = false ∧
    (globResult env s).err = none

/-- The filesystem load is tried and fails: it is enabled, and the templates
directory is reported missing or `ParseGlob` returns an error. -/
def fsLoadFails (env : Env) (s : TemplateService) : Prop :=
  fsEnabled env s ∧ ((env.stat s.config.TemplatesDir).IsNotExist = true ∨
    (globResult env s).err ≠ none)

/-- `Initialize` called `template.ParseFS` on the embedded files. -/
def embeddedParsed (env : Env) (s : TemplateService) : Prop :=
  Event.parseFS s.embeddedFS "templates/*.html" ∈ (s.Initialize env).trace

/-! ### Sample environments -/

/-- A configuration with debug mode on. -/
def sampleConfig : Config :=
  { MaxFileSize := 1000000, FileExpiryHours := 1, EnableWebUI := true, Debug := true,
    TemplatesDir := "web/templates", PublicURL := "http://localhost:3000" }

/-- An environment in which the templates directory exists and both template
sources parse. -/
def sampleEnv : Env :=
  { getenv := fun _ => ""
    stat := fun _ => StatResult.ok
    pathJoin := fun dir name => dir ++ "/" ++ name
    parseGlob := fun _ => ParseResult.parsed ⟨["upload.html", "success.html", "error.html"]⟩
    parseFS := fun _ _ => ParseResult.parsed ⟨["upload.html", "success.html"]⟩ }

/-- A freshly constructed service over the sample configuration. -/
def sampleService : TemplateService :=
  NewTemplateService sampleConfig ⟨["templates/upload.html", "templates/success.html"]⟩

/-! ## The file lifecycle engine

`main` only constructs the upload service, the cleanup service and the file
handler and wires them to routes; their code is not among the embedded
sources. The definitions of this section follow the specification's
component contracts (sections 3, 4.2 to 4.6). Timestamps are seconds. -/

/-- Modelled from the spec: one byte of the content of a blob (the blob store is
not in the sources). -/
abbrev Byte := Nat

/-- Modelled from the spec: the `id` of section 3, an opaque string (the
identity generator is not in the sources). -/
abbrev FileId := String

/-- Modelled from the spec: the error taxonomy of the engine (section 7); the
upload and retrieval services that return these are not in the sources. -/
inductive EngineError
  | BadRequest
  | TooLarge
  | NotFound
  | Gone
  | Conflict
  | StorageFailure
  deriving DecidableEq, Repr

/-- Modelled from the spec: the failures of the Blob Store and of the Metadata
Ledger (sections 4.2, 4.3), neither of which is in the sources. -/
inductive StoreError
  | SizeExceeded
  | NotFound
  | Conflict
  deriving DecidableEq, Repr

/-- Modelled from the spec: the FileRecord of section 3 (the ledger's record
type is not in the sources). -/
structure FileRecord where
  id : FileId
  originalName : String
  sizeBytes : Nat
  contentType : String
  createdAt : Int
  expiresAt : Int
  deriving DecidableEq, Repr

/-- Modelled from the spec: the state of the Blob Store (section 4.2), one blob
per identifier; the store is not in the sources. -/
abbrev BlobStore := List (FileId × List Byte)

/-- Modelled from the spec: the state of the Metadata Ledger (section 4.3), the
stored records; the ledger is not in the sources. -/
abbrev Ledger := List FileRecord

/-- Modelled from the spec: the streaming part of the Blob Store's `write`
(section 4.2), which is not in the sources: chunks are taken from the stream
one at a time and the write fails with `SizeExceeded` as soon as the bytes
written exceed the cap, without taking further chunks. -/
def BlobStore.consume (maxBytes : Int) : List Byte → List (List Byte) →
    Except StoreError (List Byte)
  | written, [] =>
    if maxBytes < (written.length : Int) then Except.error StoreError.SizeExceeded
    else Except.ok written
  | written, chunk :: rest =>
    if maxBytes < (written.length : Int) then Except.error StoreError.SizeExceeded
    else BlobStore.consume maxBytes (written ++ chunk) rest

/-- Modelled from the spec: `read(id)` of the Blob Store (section 4.2), not in
the sources; `none` is `NotFound`. -/
def BlobStore.read (b : BlobStore) (id : FileId) : Option (List Byte) :=
  (b.find? (fun e => e.1 == id)).map Prod.snd

/-- Modelled from the spec: `exists(id)` of the Blob Store (section 4.2), not
in the sources. -/
def BlobStore.exists (b : BlobStore) (id : FileId) : Bool :=
  (BlobStore.read b id).isSome

/-- Modelled from the spec: `write(id, stream, maxBytes)` of the Blob Store
(section 4.2), not in the sources: either the complete blob becomes visible at
`id` and its size is returned, or nothing changes. -/
def BlobStore.write (b : BlobStore) (id : FileId) (stream : List (List Byte))
    (maxBytes : Int) : Except StoreError (Nat × BlobStore) :=
  match BlobStore.consume maxBytes [] stream with
  | Except.error e => Except.error e
  | Except.ok bytes => Except.ok (bytes.length, (id, bytes) :: b.filter (fun e => e.1 != id))

/-- Modelled from the spec: `delete(id)` of the Blob Store (section 4.2), not
in the sources: `NotFound` if absent, otherwise the blob is removed. -/
def BlobStore.delete (b : BlobStore) (id : FileId) : Except StoreError BlobStore :=
  if BlobStore.exists b id then Except.ok (b.filter (fun e => e.1 != id))
  else Except.error StoreError.NotFound

/-- Modelled from the spec: `get(id)` of the Metadata Ledger (section 4.3),
not in the sources; `none` is `NotFound`. -/
def Ledger.get (l : Ledger) (id : FileId) : Option FileRecord :=
  l.find? (fun r => r.id == id)

/-- Modelled from the spec: `insert(record)` of the Metadata Ledger (section
4.3), not in the sources: `Conflict` if the id is already present. -/
def Ledger.insert (l : Ledger) (r : FileRecord) : Except StoreError Ledger :=
  if (Ledger.get l r.id).isSome then Except.error StoreError.Conflict
  else Except.ok (l ++ [r])

/-- Modelled from the spec: `delete(id)` of the Metadata Ledger (section 4.3),
not in the sources. -/
def Ledger.delete (l : Ledger) (id : FileId) : Except StoreError Ledger :=
  if (Ledger.get l id).isSome then Except.ok (l.filter (fun r => r.id != id))
  else Except.error StoreError.NotFound

/-- Modelled from the spec: `listExpired(asOf)` of the Metadata Ledger (section
4.3), not in the sources: the records with `expiresAt <= asOf`. -/
def Ledger.listExpired (l : Ledger) (asOf : Int) : List FileRecord :=
  l.filter (fun r => decide (r.expiresAt ≤ asOf))

/-- Modelled from the spec: the state the engines share, blobs and ledger
(section 2); neither component is in the sources. -/
structure Store where
  blobs : BlobStore
  ledger : Ledger
  deriving DecidableEq, Repr

/-- Modelled from the spec: the arguments of `accept` (section 4.4), whose code
is not in the sources: name, content type, the body as a stream of chunks, and
the declared size if the client sent one. -/
structure Upload where
  originalName : String
  contentType : String
  stream : List (List Byte)
  declaredSize : Option Nat
  deriving DecidableEq, Repr

/-- The number of bytes in the body of an upload. -/
def Upload.bodySize (u : Upload) : Nat :=
  u.stream.flatten.length

/-- Modelled from the spec: the descriptor `accept` returns (section 4.4, step
5); the upload service is not in the sources. -/
structure Descriptor where
  id : FileId
  originalName : String
  sizeBytes : Nat
  expiresAt : Int
  downloadURL : String
  deriving DecidableEq, Repr

/-- Modelled from the spec: the TTL in seconds, a configuration value of hours
granularity (section 3); the code that reads `FileExpiryHours` for expiry is
not in the sources. -/
def ttlSeconds (cfg : Config) : Int :=
  cfg.FileExpiryHours * 3600

/-- Modelled from the spec: `accept` of the Upload Engine (section 4.4); the
upload service `main` constructs with `services.NewUploadService` is not in
the sources. `newId` is the identifier drawn from the Identity Generator. The
result is the descriptor or error together with the store afterwards. -/
def accept (cfg : Config) (st : Store) (now : Int) (newId : FileId) (u : Upload) :
    Except EngineError Descriptor × Store :=
  let declaredTooLarge : Bool :=
    match u.declaredSize with
    | some d => decide (cfg.MaxFileSize < (d : Int))
    | none => false
  if declaredTooLarge then (Except.error EngineError.TooLarge, st)
  else
    match BlobStore.write st.blobs newId u.stream cfg.MaxFileSize with
    | Except.error _ => (Except.error EngineError.TooLarge, st)
    | Except.ok (size, blobs) =>
      let record : FileRecord :=
        { id := newId, originalName := u.originalName, sizeBytes := size,
          contentType := u.contentType, createdAt := now,
          expiresAt := now + ttlSeconds cfg }
      match Ledger.insert st.ledger record with
      | Except.error _ =>
        (Except.error EngineError.Conflict,
          { st with blobs := blobs.filter (fun e => e.1 != newId) })
      | Except.ok ledger =>
        (Except.ok
          { id := newId, originalName := u.originalName, sizeBytes := size,
            expiresAt := record.expiresAt,
            downloadURL := cfg.PublicURL ++ "/" ++ newId },
          { blobs := blobs, ledger := ledger })

/-- Modelled from the spec: `fetch` of the Retrieval Engine (section 4.5); the
file handler `main` constructs with `handlers.NewFileHandler` is not in the
sources. -/
def fetch (st : Store) (now : Int) (id : FileId) :
    Except EngineError (FileRecord × List Byte) :=
  match Ledger.get st.ledger id with
  | none => Except.error EngineError.NotFound
  | some r =>
    if r.expiresAt ≤ now then Except.error EngineError.Gone
    else
      match BlobStore.read st.blobs id with
      | none => Except.error EngineError.NotFound
      | some bytes => Except.ok (r, bytes)

/-- Modelled from the spec: the Reclaimer's treatment of one expired record
(section 4.6): delete the blob, then the ledger entry; a failed deletion is
skipped. The cleanup service is not in the sources. -/
def reclaim (st : Store) (r : FileRecord) : Store :=
  let blobs :=
    match BlobStore.delete st.blobs r.id with
    | Except.ok b => b
    | Except.error _ => st.blobs
  let ledger :=
    match Ledger.delete st.ledger r.id with
    | Except.ok l => l
    | Except.error _ => st.ledger
  { blobs := blobs, ledger := ledger }

/-- Modelled from the spec: one sweep of the Reclaimer at time `now` (section
4.6): every record of `listExpired(now)` is reclaimed. The cleanup service
`main` starts with `cleanupService.Start` is not in the sources. -/
def sweep (st : Store) (now : Int) : Store :=
  (Ledger.listExpired st.ledger now).foldl reclaim st

/-- Modelled from the spec: the recurring sweep of section 4.6 (the cleanup
service is not in the sources): the store after sweeps at the given times, in
order. -/
def sweeps (st : Store) (times : List Int) : Store :=
  times.foldl sweep st

/-- The record `accept` inserts for an upload accepted at time `now`. -/
def acceptedRecord (cfg : Config) (now : Int) (newId : FileId) (u : Upload) : FileRecord :=
  { id := newId, originalName := u.originalName, sizeBytes := u.bodySize,
    contentType := u.contentType, createdAt := now, expiresAt := now + ttlSeconds cfg }

/-- The entry of an id and its blob are live in a store: the ledger holds the
record under the id, no other record carries the id, and the blob is stored. -/
def liveIn (st : Store) (id : FileId) (rec : FileRecord) (content : List Byte) : Prop :=
  Ledger.get st.ledger id = some rec ∧ (∀ r ∈ st.ledger, r.id = id → r = rec) ∧
    BlobStore.read st.blobs id = some content

/-- What becomes of an upload request: the application refuses it before any
handler runs, or the upload handler runs and returns the engine's result. -/
inductive UploadOutcome
  | refused
  | handled (result : Except EngineError Descriptor)

/-- Modelled from the spec: the upload request path (section 6), whose handler
is not in the sources: the application `main` builds first applies its body
limit, and a request it lets through is handed to `accept`. -/
def serveUpload (w : Nat) (cfg : Config) (st : Store) (now : Int) (newId : FileId)
    (u : Upload) : UploadOutcome × Store :=
  if refusesBody (appBodyLimit w cfg) u.bodySize then (UploadOutcome.refused, st)
  else
    let r := accept cfg st now newId u
    (UploadOutcome.handled r.1, r.2)

/-! ### The scenario of the specification -/

/-- The bytes of "helloworld". -/
def helloworld : List Byte :=
  [104, 101, 108, 108, 111, 119, 111, 114, 108, 100]

/-- The upload of the 10-byte file "helloworld", sent in two chunks. -/
def helloUpload : Upload :=
  { originalName := "hello.txt", contentType := "text/plain",
    stream := [[104, 101, 108, 108, 111], [119, 111, 114, 108, 100]],
    declaredSize := some 10 }

/-- The empty store. -/
def emptyStore : Store :=
  { blobs := [], ledger := [] }

/-- The sample configuration with a maximum file size of 9 bytes. -/
def nineByteConfig : Config :=
  { sampleConfig with MaxFileSize := 9 }

/-- The sample configuration with a maximum file size of 0 bytes. -/
def zeroLimitConfig : Config :=
  { sampleConfig with MaxFileSize := 0 }

/-- The sample configuration with a maximum file size of -1. -/
def negativeLimitConfig : Config :=
  { sampleConfig with MaxFileSize := -1 }

/-- The upload of "helloworld" without a declared size. -/
def undeclaredUpload : Upload :=
  { helloUpload with declaredSize := none }

/-- An upload whose body is the single byte `a`. -/
def oneByteUpload : Upload :=
  { originalName := "a.txt", contentType := "text/plain", stream := [[97]],
    declaredSize := none }

/-- An upload with an empty body. -/
def emptyUpload : Upload :=
  { originalName := "empty.txt", contentType := "text/plain", stream := [],
    declaredSize := none }

/-! # Theorems -/

/-! ## The route table -/

/-- The routes `setupRoutes` registers are appended to the routes already on
the stack. -/
theorem setupRoutes_append (app : App) (cfg : Config) (webHandler : Option WebHandler) :
    setupRoutes app cfg webHandler = app ++ setupRoutes [] cfg webHandler := by
  unfold setupRoutes
  split <;> simp [App.Get, App.Post]

/-- The route table when the Web UI branch is taken. -/
theorem setupRoutes_web (cfg : Config) (webHandler : Option WebHandler)
    (h : webBranch cfg webHandler = true) :
    setupRoutes [] cfg webHandler =
      [⟨Method.GET, "/health", Handler.apiHealthCheck⟩,
       ⟨Method.GET, "/success", Handler.webSuccessPage⟩,
       ⟨Method.GET, "/", Handler.webUploadPage⟩,
       ⟨Method.POST, "/", Handler.webUploadFileHandler⟩,
       ⟨Method.GET, "/:filename", Handler.fileDownloadFile⟩] := by
  unfold webBranch at h
  simp [setupRoutes, h, App.Get, App.Post]

/-- The route table when the Web UI branch is not taken. -/
theorem setupRoutes_api (cfg : Config) (webHandler : Option WebHandler)
    (h : webBranch cfg webHandler = false) :
    setupRoutes [] cfg webHandler =
      [⟨Method.GET, "/health", Handler.apiHealthCheck⟩,
       ⟨Method.POST, "/", Handler.apiUploadFile⟩,
       ⟨Method.GET, "/:filename", Handler.fileDownloadFile⟩] := by
  unfold webBranch at h
  simp [setupRoutes, h, App.Get, App.Post]

/-- C3: for every configuration and every web handler (nil or not), the route
list built by `setupRoutes` starts with GET /health bound to the health check
and ends with GET /:filename bound to the download handler, every other route
lying in between and being neither of the two; the download wildcard does
match the path /health, yet first-match dispatch of GET /health returns the
health check. -/
theorem setupRoutes_health_first_download_last (app : App) (cfg : Config)
    (webHandler : Option WebHandler) :
    (∃ mid : List Route,
      setupRoutes app cfg webHandler =
        app ++ ⟨Method.GET, "/health", Handler.apiHealthCheck⟩ ::
          (mid ++ [⟨Method.GET, "/:filename", Handler.fileDownloadFile⟩]) ∧
      ∀ r ∈ mid, r.path ≠ "/health" ∧ r.path ≠ "/:filename" ∧
        r.handler ≠ Handler.apiHealthCheck ∧ r.handler ≠ Handler.fileDownloadFile) ∧
    pathMatches "/:filename" "/health" = true ∧
    dispatch (setupRoutes [] cfg webHandler) Method.GET "/health" =
      some Handler.apiHealthCheck ∧
    dispatch (setupRoutes [] cfg webHandler) Method.GET "/health" ≠
      some Handler.fileDownloadFile := by
  rw [setupRoutes_append]
  cases h : webBranch cfg webHandler
  · rw [setupRoutes_api cfg webHandler h]
    refine ⟨⟨[⟨Method.POST, "/", Handler.apiUploadFile⟩], by simp, by decide⟩,
      by decide, by decide, by decide⟩
  · rw [setupRoutes_web cfg webHandler h]
    refine ⟨⟨[⟨Method.GET, "/success", Handler.webSuccessPage⟩,
        ⟨Method.GET, "/", Handler.webUploadPage⟩,
        ⟨Method.POST, "/", Handler.webUploadFileHandler⟩], by simp, by decide⟩,
      by decide, by decide, by decide⟩

/-- C4: `setupRoutes` registers exactly one POST / route, bound to the Web UI
upload handler when `cfg.EnableWebUI` holds and the web handler is non-nil and
to the API upload handler otherwise; a GET / route and a GET /success route
are registered exactly when the Web UI branch is taken (and are then bound to
the page handlers); with the web handler `main` passes, the Web UI branch is
taken exactly when `cfg.EnableWebUI`. -/
theorem setupRoutes_upload_handler_and_pages (cfg : Config)
    (webHandler : Option WebHandler) :
    ((setupRoutes [] cfg webHandler).filter
        (fun r => r.method == Method.POST && r.path == "/")).map Route.handler =
      [if cfg.EnableWebUI = true ∧ webHandler ≠ none then Handler.webUploadFileHandler
       else Handler.apiUploadFile] ∧
    ((∃ r ∈ setupRoutes [] cfg webHandler, r.method = Method.GET ∧ r.path = "/") ↔
      webBranch cfg webHandler = true) ∧
    ((∃ r ∈ setupRoutes [] cfg webHandler, r.method = Method.GET ∧ r.path = "/success") ↔
      webBranch cfg webHandler = true) ∧
    (webBranch cfg webHandler = true →
      (⟨Method.GET, "/", Handler.webUploadPage⟩ : Route) ∈ setupRoutes [] cfg webHandler ∧
      (⟨Method.GET, "/success", Handler.webSuccessPage⟩ : Route) ∈
        setupRoutes [] cfg webHandler) ∧
    (webBranch cfg webHandler = true ↔ (cfg.EnableWebUI = true ∧ webHandler ≠ none)) ∧
    ((mainWebHandler cfg ≠ none ↔ cfg.EnableWebUI = true) ∧
      (webBranch cfg (mainWebHandler cfg) = true ↔ cfg.EnableWebUI = true)) := by
  have hb : webBranch cfg webHandler = true ↔ (cfg.EnableWebUI = true ∧ webHandler ≠ none) := by
    cases webHandler <;> simp [webBranch]
  have hm : (mainWebHandler cfg ≠ none ↔ cfg.EnableWebUI = true) ∧
      (webBranch cfg (mainWebHandler cfg) = true ↔ cfg.EnableWebUI = true) := by
    cases he : cfg.EnableWebUI <;> simp [webBranch, mainWebHandler, he]
  cases h : webBranch cfg webHandler
  · have hn : ¬ (cfg.EnableWebUI = true ∧ webHandler ≠ none) := by
      rw [← hb, h]; simp
    rw [setupRoutes_api cfg webHandler h, if_neg hn]
    refine ⟨by decide, by decide, by decide, by simp, ?_, hm⟩
    rw [← hb, h]
  · have hp : cfg.EnableWebUI = true ∧ webHandler ≠ none := hb.mp h
    rw [setupRoutes_web cfg webHandler h, if_pos hp]
    refine ⟨by decide, by decide, by decide, by simp, ?_, hm⟩
    simp [hp.1, hp.2]

/-! ## `TemplateService.Initialize` -/

/-- The two mode strings differ. -/
theorem filesystem_ne_embedded : ("filesystem" : String) ≠ "embedded" := by decide

/-- C5: after `Initialize` returns without error, `GetMode` returns
"filesystem" exactly when filesystem loading was enabled, the stat of the
templates directory did not report not-exist and `ParseGlob` on `*.html` in
that directory succeeded, and then the stored template set is the one parsed
from the filesystem; in every other case `GetMode` returns "embedded" and the
stored template set is the one parsed from the embedded files. -/
theorem Initialize_GetMode (env : Env) (s : TemplateService)
    (h : (s.Initialize env).err = none) :
    ((s.Initialize env).service.GetMode = "filesystem" ↔ fsLoadOk env s) ∧
    (fsLoadOk env s →
      ∃ t, globResult env s = ParseResult.parsed t ∧
        (s.Initialize env).service.templates = some t) ∧
    (¬ fsLoadOk env s →
      (s.Initialize env).service.GetMode = "embedded" ∧
      ∃ t, embeddedResult env s = ParseResult.parsed t ∧
        (s.Initialize env).service.templates = some t) := by
  have hne := filesystem_ne_embedded
  unfold fsLoadOk fsEnabled globResult embeddedResult
  unfold TemplateService.Initialize at h ⊢
  cases hd : s.config.Debug <;>
  by_cases hg : env.getenv "USE_FILESYSTEM_ASSETS" = "true" <;>
  cases hs : env.stat s.config.TemplatesDir <;>
  cases hp : env.parseGlob (env.pathJoin s.config.TemplatesDir "*.html") <;>
  cases he : env.parseFS s.embeddedFS "templates/*.html" <;>
  simp_all [TemplateService.GetMode, StatResult.IsNotExist, ParseResult.err, ParseResult.tmpl]

/-- Witness for C5: in the sample environment the filesystem load succeeds. -/
theorem Initialize_GetMode_witness :
    (sampleService.Initialize sampleEnv).err = none ∧
    (((sampleService.Initialize sampleEnv).service.GetMode = "filesystem" ↔
        fsLoadOk sampleEnv sampleService) ∧
      (fsLoadOk sampleEnv sampleService →
        ∃ t, globResult sampleEnv sampleService = ParseResult.parsed t ∧
          (sampleService.Initialize sampleEnv).service.templates = some t) ∧
      (¬ fsLoadOk sampleEnv sampleService →
        (sampleService.Initialize sampleEnv).service.GetMode = "embedded" ∧
        ∃ t, embeddedResult sampleEnv sampleService = ParseResult.parsed t ∧
          (sampleService.Initialize sampleEnv).service.templates = some t)) :=
  ⟨by decide, Initialize_GetMode sampleEnv sampleService (by decide)⟩

/-- C6: `Initialize` returns an error exactly when it parses the embedded
templates and that parse fails (the error then wraps the parse error); when
the filesystem load is tried and fails (directory reported missing, or
`ParseGlob` error) the embedded templates are parsed and the result depends on
that parse alone, so `Initialize` returns nil and stores the embedded set
whenever the embedded parse succeeds; when the filesystem load succeeds the
embedded templates are not parsed and `Initialize` returns nil. -/
theorem Initialize_error_iff (env : Env) (s : TemplateService) :
    ((s.Initialize env).err ≠ none ↔
      embeddedParsed env s ∧ (embeddedResult env s).err ≠ none) ∧
    (fsLoadFails env s →
      embeddedParsed env s ∧
      (s.Initialize env).err =
        (embeddedResult env s).err.map (fun e => "failed to parse embedded templates: " ++ e) ∧
      ((embeddedResult env s).err = none →
        (s.Initialize env).err = none ∧
        (s.Initialize env).service.templates = (embeddedResult env s).tmpl ∧
        (s.Initialize env).service.GetMode = "embedded")) ∧
    (fsLoadOk env s → ¬ embeddedParsed env s ∧ (s.Initialize env).err = none) := by
  unfold fsLoadOk fsLoadFails fsEnabled embeddedParsed globResult embeddedResult
  unfold TemplateService.Initialize
  cases hd : s.config.Debug <;>
  by_cases hg : env.getenv "USE_FILESYSTEM_ASSETS" = "true" <;>
  cases hs : env.stat s.config.TemplatesDir <;>
  cases hp : env.parseGlob (env.pathJoin s.config.TemplatesDir "*.html") <;>
  cases he : env.parseFS s.embeddedFS "templates/*.html" <;>
  simp_all [TemplateService.GetMode, StatResult.IsNotExist, ParseResult.err, ParseResult.tmpl]

/-! ## The file lifecycle engine -/

/-- A capped write fails when the bytes written plus the bytes still in the
stream exceed the cap. -/
theorem BlobStore.consume_exceeds (maxBytes : Int) (stream : List (List Byte)) :
    ∀ written : List Byte,
      maxBytes < ((written.length + stream.flatten.length : Nat) : Int) →
      BlobStore.consume maxBytes written stream = Except.error StoreError.SizeExceeded := by
  induction stream with
  | nil =>
    intro written h
    simp only [List.flatten_nil, List.length_nil, Nat.add_zero] at h
    simp [BlobStore.consume, h]
  | cons chunk rest ih =>
    intro written h
    unfold BlobStore.consume
    split
    · rfl
    · apply ih
      simpa [List.length_append, Nat.add_assoc] using h

/-- A capped write within the cap returns every byte of the stream, in order. -/
theorem BlobStore.consume_within (maxBytes : Int) (stream : List (List Byte)) :
    ∀ written : List Byte,
      ((written.length + stream.flatten.length : Nat) : Int) ≤ maxBytes →
      BlobStore.consume maxBytes written stream = Except.ok (written ++ stream.flatten) := by
  induction stream with
  | nil =>
    intro written h
    simp only [List.flatten_nil, List.length_nil, Nat.add_zero] at h
    simp [BlobStore.consume, not_lt.mpr h]
  | cons chunk rest ih =>
    intro written h
    unfold BlobStore.consume
    have hw : ¬ maxBytes < (written.length : Int) := by
      push_cast at h ⊢
      have := Int.ofNat_nonneg (chunk :: rest).flatten.length
      omega
    rw [if_neg hw, ih]
    · simp
    · simpa [List.length_append, Nat.add_assoc] using h

/-- The platform conversion is the identity on values that fit. -/
theorem toInt_of_fits (w : Nat) (x : Int) (hw : 0 < w) (h : fitsInt w x) :
    toInt w x = x := by
  obtain ⟨h1, h2⟩ := h
  have hp : (2 : Int) ^ w = 2 * 2 ^ (w - 1) := by
    obtain ⟨k, rfl⟩ : ∃ k, w = k + 1 := ⟨w - 1, by omega⟩
    simp [pow_succ, mul_comm]
  unfold toInt
  rw [hp, Int.emod_eq_of_lt (by omega) (by omega)]
  omega

/-- An upload whose body exceeds the configured maximum is rejected by
`accept` as `TooLarge` and leaves the store as it was. -/
theorem accept_oversize (cfg : Config) (st : Store) (now : Int) (newId : FileId)
    (u : Upload) (hbig : cfg.MaxFileSize + 1 ≤ (u.bodySize : Int)) :
    accept cfg st now newId u = (Except.error EngineError.TooLarge, st) := by
  have hcons : BlobStore.consume cfg.MaxFileSize [] u.stream =
      Except.error StoreError.SizeExceeded := by
    apply BlobStore.consume_exceeds
    simp only [List.length_nil, Nat.zero_add]
    unfold Upload.bodySize at hbig
    omega
  unfold accept BlobStore.write
  rw [hcons]
  simp only []
  split <;> rfl

/-- C1, as the code behaves: an upload whose body exceeds the configured
maximum file size by at least one byte is rejected as `TooLarge` by the engine
and leaves the store as it was, so that no blob or ledger entry of the attempt
can be retrieved; on the request path the store is unchanged as well and the
request is either refused by the application or answered `TooLarge` by the
handler. Whenever `cfg.MaxFileSize` fits in `int`, the `BodyLimit` handed to
Fiber equals the configured maximum; if the maximum is moreover positive, the
limit the application enforces equals it too and the request is refused before
any upload handler runs. -/
theorem accept_oversize_rejected (w : Nat) (cfg : Config) (st : Store) (now : Int)
    (newId : FileId) (u : Upload)
    (hbig : cfg.MaxFileSize + 1 ≤ (u.bodySize : Int)) :
    ((accept cfg st now newId u).1 = Except.error EngineError.TooLarge ∧
      (accept cfg st now newId u).2 = st ∧
      (∀ (t : Int) (id : FileId),
        fetch (accept cfg st now newId u).2 t id = fetch st t id) ∧
      (Ledger.get st.ledger newId = none →
        Ledger.get (accept cfg st now newId u).2.ledger newId = none ∧
        ∀ t : Int, fetch (accept cfg st now newId u).2 t newId =
          Except.error EngineError.NotFound) ∧
      (BlobStore.exists st.blobs newId = false →
        BlobStore.exists (accept cfg st now newId u).2.blobs newId = false)) ∧
    ((serveUpload w cfg st now newId u).2 = st ∧
      ((serveUpload w cfg st now newId u).1 = UploadOutcome.refused ∨
        (serveUpload w cfg st now newId u).1 =
          UploadOutcome.handled (Except.error EngineError.TooLarge))) ∧
    (0 < w → fitsInt w cfg.MaxFileSize →
      bodyLimit w cfg = cfg.MaxFileSize ∧
      (0 < cfg.MaxFileSize →
        appBodyLimit w cfg = cfg.MaxFileSize ∧
        refusesBody (appBodyLimit w cfg) u.bodySize = true ∧
        (serveUpload w cfg st now newId u).1 = UploadOutcome.refused)) := by
  have hacc := accept_oversize cfg st now newId u hbig
  refine ⟨?_, ?_, ?_⟩
  · rw [hacc]
    refine ⟨rfl, rfl, fun _ _ => rfl, ?_, fun h => h⟩
    intro hget
    refine ⟨hget, fun t => ?_⟩
    simp [fetch, hget]
  · unfold serveUpload
    split
    · exact ⟨rfl, Or.inl rfl⟩
    · rw [hacc]
      exact ⟨rfl, Or.inr rfl⟩
  · intro hw hfit
    have hlim : bodyLimit w cfg = cfg.MaxFileSize := toInt_of_fits w _ hw hfit
    refine ⟨hlim, fun hpos => ?_⟩
    have happ : appBodyLimit w cfg = cfg.MaxFileSize := by
      unfold appBodyLimit
      rw [hlim, if_neg (by omega)]
    have href : refusesBody (appBodyLimit w cfg) u.bodySize = true := by
      unfold refusesBody
      rw [happ]
      exact decide_eq_true ⟨hpos, by omega⟩
    refine ⟨happ, href, ?_⟩
    unfold serveUpload
    rw [href]
    rfl

/-- Witness for C1: the 10-byte upload against a maximum of 9 bytes, on a
64-bit platform, is refused before the handler and leaves the store empty. -/
theorem accept_oversize_rejected_witness :
    nineByteConfig.MaxFileSize + 1 ≤ (undeclaredUpload.bodySize : Int) ∧
    (0 < 64 ∧ fitsInt 64 nineByteConfig.MaxFileSize ∧ 0 < nineByteConfig.MaxFileSize) ∧
    (accept nineByteConfig emptyStore 0 "f1" undeclaredUpload).1 =
      Except.error EngineError.TooLarge ∧
    (accept nineByteConfig emptyStore 0 "f1" undeclaredUpload).2 = emptyStore ∧
    appBodyLimit 64 nineByteConfig = 9 ∧
    (serveUpload 64 nineByteConfig emptyStore 0 "f1" undeclaredUpload).1 =
      UploadOutcome.refused :=
  have h := accept_oversize_rejected 64 nineByteConfig emptyStore 0 "f1" undeclaredUpload
    (by decide)
  have h3 := (h.2.2 (by decide) (by decide)).2 (by decide)
  ⟨by decide, ⟨by decide, by decide, by decide⟩, h.1.1, h.1.2.1, h3.1, h3.2.2⟩

/-- Counterexample to C1 as stated: with `MaxFileSize = 0` (which fits in a
64-bit `int`) the `BodyLimit` handed to Fiber is 0, the application enforces
its 4 MiB default instead, and a 1-byte body, larger than the maximum, is not
refused but reaches the upload handler; with `MaxFileSize = -1` the limit
stays -1 and an empty body reaches the upload handler likewise. -/
theorem body_limit_not_positive_admits_body :
    (fitsInt 64 zeroLimitConfig.MaxFileSize ∧
      zeroLimitConfig.MaxFileSize + 1 ≤ (oneByteUpload.bodySize : Int) ∧
      bodyLimit 64 zeroLimitConfig = zeroLimitConfig.MaxFileSize ∧
      appBodyLimit 64 zeroLimitConfig = 4194304 ∧
      refusesBody (appBodyLimit 64 zeroLimitConfig) oneByteUpload.bodySize = false ∧
      (serveUpload 64 zeroLimitConfig emptyStore 0 "f1" oneByteUpload).1 =
        UploadOutcome.handled (Except.error EngineError.TooLarge)) ∧
    (fitsInt 64 negativeLimitConfig.MaxFileSize ∧
      negativeLimitConfig.MaxFileSize + 1 ≤ (emptyUpload.bodySize : Int) ∧
      bodyLimit 64 negativeLimitConfig = negativeLimitConfig.MaxFileSize ∧
      appBodyLimit 64 negativeLimitConfig = -1 ∧
      refusesBody (appBodyLimit 64 negativeLimitConfig) emptyUpload.bodySize = false ∧
      (serveUpload 64 negativeLimitConfig emptyStore 0 "f1" emptyUpload).1 =
        UploadOutcome.handled (Except.error EngineError.TooLarge)) :=
  ⟨⟨by decide, by decide, by decide, by decide, by decide, rfl⟩,
    ⟨by decide, by decide, by decide, by decide, by decide, rfl⟩⟩

/-! ### Retrieval and reclamation -/

/-- Filtering a list by a predicate implied by the search predicate does not
change the first hit. -/
theorem find?_filter_of_imp {α : Type} (p q : α → Bool) (l : List α)
    (h : ∀ a, p a = true → q a = true) : (l.filter q).find? p = l.find? p := by
  induction l with
  | nil => rfl
  | cons a l ih =>
    cases hq : q a
    · have hp : p a = false := by
        cases hp : p a
        · rfl
        · rw [h a hp] at hq; cases hq
      rw [List.filter_cons_of_neg (by simp [hq]), List.find?_cons, hp, ih]
    · rw [List.filter_cons_of_pos hq, List.find?_cons, List.find?_cons, ih]

/-- Looking up an id after the entries of another id are filtered out. -/
theorem Ledger.get_filter_ne (l : Ledger) (id x : FileId) (h : id ≠ x) :
    Ledger.get (l.filter (fun r => r.id != x)) id = Ledger.get l id := by
  unfold Ledger.get
  apply find?_filter_of_imp
  intro a ha
  have : a.id = id := by simpa using ha
  simpa [this] using h

/-- Reading an id after the blobs of another id are filtered out. -/
theorem BlobStore.read_filter_ne (b : BlobStore) (id x : FileId) (h : id ≠ x) :
    BlobStore.read (b.filter (fun e => e.1 != x)) id = BlobStore.read b id := by
  unfold BlobStore.read
  rw [find?_filter_of_imp]
  intro a ha
  have : a.1 = id := by simpa using ha
  simpa [this] using h

/-- An id is absent from the ledger exactly when no record carries it. -/
theorem Ledger.get_eq_none_iff (l : Ledger) (id : FileId) :
    Ledger.get l id = none ↔ ∀ r ∈ l, r.id ≠ id := by
  simp [Ledger.get, List.find?_eq_none]

/-- Reclaiming a record filters its id out of the blobs and out of the ledger. -/
theorem reclaim_eq (st : Store) (r : FileRecord) :
    reclaim st r =
      { blobs := st.blobs.filter (fun e => e.1 != r.id),
        ledger := st.ledger.filter (fun x => x.id != r.id) } := by
  have hb : (match BlobStore.delete st.blobs r.id with
      | Except.ok b => b
      | Except.error _ => st.blobs) = st.blobs.filter (fun e => e.1 != r.id) := by
    unfold BlobStore.delete
    split_ifs with h
    · rfl
    · simp only [BlobStore.exists, BlobStore.read, Option.isSome_map', Bool.not_eq_true,
        Option.not_isSome, Option.isNone_iff_eq_none, List.find?_eq_none] at h
      symm
      rw [List.filter_eq_self]
      intro e he
      simpa using h e he
  have hl : (match Ledger.delete st.ledger r.id with
      | Except.ok l => l
      | Except.error _ => st.ledger) = st.ledger.filter (fun x => x.id != r.id) := by
    unfold Ledger.delete
    split_ifs with h
    · rfl
    · simp only [Ledger.get, Bool.not_eq_true, Option.not_isSome,
        Option.isNone_iff_eq_none, List.find?_eq_none] at h
      symm
      rw [List.filter_eq_self]
      intro e he
      simpa using h e he
  unfold reclaim
  simp only [hb, hl]

/-- Reclaiming records never adds a ledger entry. -/
theorem foldl_reclaim_subset (rs : List FileRecord) :
    ∀ st : Store, ∀ r ∈ (rs.foldl reclaim st).ledger, r ∈ st.ledger := by
  induction rs with
  | nil => intro st r h; exact h
  | cons a rs ih =>
    intro st r h
    have h1 := ih (reclaim st a) r h
    rw [reclaim_eq] at h1
    exact (List.mem_filter.mp h1).1

/-- After reclaiming the records `rs`, no ledger entry carries the id of one
of them. -/
theorem foldl_reclaim_removes (rs : List FileRecord) :
    ∀ st : Store, ∀ r ∈ (rs.foldl reclaim st).ledger, ∀ x ∈ rs, r.id ≠ x.id := by
  induction rs with
  | nil => intro st r _ x hx; cases hx
  | cons a rs ih =>
    intro st r h x hx
    rcases List.mem_cons.mp hx with rfl | hx
    · have h1 := foldl_reclaim_subset rs (reclaim st x) r h
      rw [reclaim_eq] at h1
      simpa using (List.mem_filter.mp h1).2
    · exact ih (reclaim st a) r h x hx

/-- Reclaiming records of other ids leaves the ledger entry and the blob of
an id as they were. -/
theorem foldl_reclaim_preserves (id : FileId) (rs : List FileRecord)
    (hrs : ∀ x ∈ rs, x.id ≠ id) :
    ∀ st : Store,
      Ledger.get (rs.foldl reclaim st).ledger id = Ledger.get st.ledger id ∧
      BlobStore.read (rs.foldl reclaim st).blobs id = BlobStore.read st.blobs id := by
  induction rs with
  | nil => intro st; exact ⟨rfl, rfl⟩
  | cons a rs ih =>
    intro st
    have ha : id ≠ a.id := fun e => hrs a (List.mem_cons_self _ _) e.symm
    have h1 := ih (fun x hx => hrs x (List.mem_cons_of_mem _ hx)) (reclaim st a)
    simp only [List.foldl_cons]
    rw [h1.1, h1.2, reclaim_eq]
    exact ⟨Ledger.get_filter_ne _ _ _ ha, BlobStore.read_filter_ne _ _ _ ha⟩

/-- A sweep never adds a ledger entry. -/
theorem sweep_subset (st : Store) (now : Int) :
    ∀ r ∈ (sweep st now).ledger, r ∈ st.ledger :=
  foldl_reclaim_subset _ st

/-- After a sweep at `now`, every remaining ledger entry expires after `now`. -/
theorem sweep_removes_expired (st : Store) (now : Int) :
    ∀ r ∈ (sweep st now).ledger, now < r.expiresAt := by
  intro r hr
  by_contra hlt
  have hmem : r ∈ Ledger.listExpired st.ledger now := by
    unfold Ledger.listExpired
    exact List.mem_filter.mpr ⟨sweep_subset st now r hr, by simpa using not_lt.mp hlt⟩
  exact foldl_reclaim_removes _ st r hr r hmem rfl

/-- Sweeps never add a ledger entry. -/
theorem sweeps_subset (times : List Int) :
    ∀ st : Store, ∀ r ∈ (sweeps st times).ledger, r ∈ st.ledger := by
  induction times with
  | nil => intro st r h; exact h
  | cons s times ih =>
    intro st r h
    exact sweep_subset st s r (ih (sweep st s) r h)

/-- A sweep before the expiry of a live entry leaves it live. -/
theorem sweep_keeps_live (st : Store) (id : FileId) (rec : FileRecord)
    (content : List Byte) (now : Int) (h : liveIn st id rec content)
    (hnow : now < rec.expiresAt) : liveIn (sweep st now) id rec content := by
  obtain ⟨hget, huniq, hread⟩ := h
  have hrs : ∀ x ∈ Ledger.listExpired st.ledger now, x.id ≠ id := by
    intro x hx hid
    unfold Ledger.listExpired at hx
    obtain ⟨hxm, hxe⟩ := List.mem_filter.mp hx
    have := huniq x hxm hid
    subst this
    have : x.expiresAt ≤ now := by simpa using hxe
    omega
  have hp := foldl_reclaim_preserves id _ hrs st
  refine ⟨?_, ?_, ?_⟩
  · unfold sweep; rw [hp.1, hget]
  · intro r hr hid
    exact huniq r (sweep_subset st now r hr) hid
  · unfold sweep; rw [hp.2, hread]

/-- Sweeps before the expiry of a live entry leave it live. -/
theorem sweeps_keep_live (id : FileId) (rec : FileRecord) (content : List Byte)
    (times : List Int) (htimes : ∀ s ∈ times, s < rec.expiresAt) :
    ∀ st : Store, liveIn st id rec content → liveIn (sweeps st times) id rec content := by
  induction times with
  | nil => intro st h; exact h
  | cons s times ih =>
    intro st h
    exact ih (fun x hx => htimes x (List.mem_cons_of_mem _ hx)) (sweep st s)
      (sweep_keeps_live st id rec content s h (htimes s (List.mem_cons_self _ _)))

/-- Once one of the sweeps ran at or after the expiry of the only record of an
id, the ledger holds no record of that id. -/
theorem sweeps_drop_expired (id : FileId) (rec : FileRecord) (times : List Int) :
    ∀ st : Store, (∀ r ∈ st.ledger, r.id = id → r = rec) →
      (∃ s ∈ times, rec.expiresAt ≤ s) →
      Ledger.get (sweeps st times).ledger id = none := by
  induction times with
  | nil => intro st _ h; obtain ⟨s, hs, _⟩ := h; cases hs
  | cons s times ih =>
    intro st huniq h
    by_cases hs : rec.expiresAt ≤ s
    · rw [Ledger.get_eq_none_iff]
      intro r hr hid
      have h1 : r ∈ (sweep st s).ledger := sweeps_subset times (sweep st s) r hr
      have h2 := sweep_removes_expired st s r h1
      have h3 := huniq r (sweep_subset st s r h1) hid
      subst h3
      omega
    · obtain ⟨s', hs', hle⟩ := h
      rcases List.mem_cons.mp hs' with rfl | hmem
      · exact absurd hle hs
      · exact ih (sweep st s) (fun r hr hid => huniq r (sweep_subset st s r hr) hid)
          ⟨s', hmem, hle⟩

/-- A successful `accept`: the id was not in the ledger, the body is within
the configured maximum, the blob holds the bytes of the stream, the record is
appended to the ledger, and the descriptor describes that record. -/
theorem accept_ok (cfg : Config) (st : Store) (now : Int) (newId : FileId) (u : Upload)
    (d : Descriptor) (h : (accept cfg st now newId u).1 = Except.ok d) :
    Ledger.get st.ledger newId = none ∧
    (u.bodySize : Int) ≤ cfg.MaxFileSize ∧
    (accept cfg st now newId u).2 =
      { blobs := (newId, u.stream.flatten) :: st.blobs.filter (fun e => e.1 != newId),
        ledger := st.ledger ++ [acceptedRecord cfg now newId u] } ∧
    d = { id := newId, originalName := u.originalName, sizeBytes := u.bodySize,
          expiresAt := now + ttlSeconds cfg,
          downloadURL := cfg.PublicURL ++ "/" ++ newId } := by
  by_cases hsize : (u.bodySize : Int) ≤ cfg.MaxFileSize
  · have hcons : BlobStore.consume cfg.MaxFileSize [] u.stream =
        Except.ok u.stream.flatten := by
      have := BlobStore.consume_within cfg.MaxFileSize u.stream []
        (by simpa [Upload.bodySize] using hsize)
      simpa using this
    cases hget : Ledger.get st.ledger newId with
    | some r =>
      exfalso
      revert h
      unfold accept BlobStore.write Ledger.insert
      rw [hcons]
      simp only [hget, Option.isSome_some, if_true]
      split <;> intro h <;> cases h
    | none =>
      revert h
      unfold accept BlobStore.write Ledger.insert
      rw [hcons]
      simp only [hget, Option.isSome_none, Bool.false_eq_true, if_false]
      split
      · intro h; cases h
      · intro h
        injection h with h
        refine ⟨trivial, hsize, rfl, ?_⟩
        rw [← h]
        rfl
  · exfalso
    have hcons : BlobStore.consume cfg.MaxFileSize [] u.stream =
        Except.error StoreError.SizeExceeded := by
      apply BlobStore.consume_exceeds
      simp only [List.length_nil, Nat.zero_add]
      unfold Upload.bodySize at hsize
      omega
    revert h
    unfold accept BlobStore.write
    rw [hcons]
    simp only []
    split <;> intro h <;> cases h

/-- After a successful `accept` the new entry is live. -/
theorem accept_live (cfg : Config) (st : Store) (now : Int) (newId : FileId) (u : Upload)
    (d : Descriptor) (h : (accept cfg st now newId u).1 = Except.ok d) :
    liveIn (accept cfg st now newId u).2 newId (acceptedRecord cfg now newId u)
      u.stream.flatten := by
  obtain ⟨hget, _, hst, _⟩ := accept_ok cfg st now newId u d h
  rw [hst]
  have hnone := (Ledger.get_eq_none_iff st.ledger newId).mp hget
  refine ⟨?_, ?_, ?_⟩
  · unfold Ledger.get at hget ⊢
    simp [List.find?_append, hget, acceptedRecord]
  · intro r hr hid
    rcases List.mem_append.mp hr with hr | hr
    · exact absurd hid (hnone r hr)
    · simpa using hr
  · simp [BlobStore.read]

/-- Fetching a live entry before its expiry returns the record and the blob. -/
theorem fetch_live (st : Store) (id : FileId) (rec : FileRecord) (content : List Byte)
    (t : Int) (h : liveIn st id rec content) (ht : t < rec.expiresAt) :
    fetch st t id = Except.ok (rec, content) := by
  obtain ⟨hget, _, hread⟩ := h
  simp [fetch, hget, hread, not_le.mpr ht]

/-- Fetching a live entry at or after its expiry reports `Gone`. -/
theorem fetch_expired (st : Store) (id : FileId) (rec : FileRecord) (content : List Byte)
    (t : Int) (h : liveIn st id rec content) (ht : rec.expiresAt ≤ t) :
    fetch st t id = Except.error EngineError.Gone := by
  obtain ⟨hget, _, _⟩ := h
  simp [fetch, hget, ht]

/-- C2, as the engine behaves: after an upload accepted at time `T` with a TTL
of one hour, whatever sweeps have run up to the query time `t`, `fetch` of the
id returns the uploaded bytes for every `t < T + 3600`; for every
`t >= T + 3600` it never returns content: it reports `Gone` as long as no
sweep ran at or after `T + 3600`, and `NotFound` once such a sweep has run. -/
theorem fetch_respects_ttl (cfg : Config) (st : Store) (T : Int) (id : FileId)
    (u : Upload) (d : Descriptor) (times : List Int) (t : Int)
    (httl : cfg.FileExpiryHours = 1)
    (hok : (accept cfg st T id u).1 = Except.ok d)
    (hpast : ∀ s ∈ times, s ≤ t) :
    (d.id = id ∧ d.sizeBytes = u.bodySize ∧ d.expiresAt = T + 3600) ∧
    (t < T + 3600 →
      fetch (sweeps (accept cfg st T id u).2 times) t id =
        Except.ok (acceptedRecord cfg T id u, u.stream.flatten)) ∧
    (T + 3600 ≤ t → (∀ s ∈ times, s < T + 3600) →
      fetch (sweeps (accept cfg st T id u).2 times) t id =
        Except.error EngineError.Gone) ∧
    (T + 3600 ≤ t → (∃ s ∈ times, T + 3600 ≤ s) →
      fetch (sweeps (accept cfg st T id u).2 times) t id =
        Except.error EngineError.NotFound) := by
  have hexp : (acceptedRecord cfg T id u).expiresAt = T + 3600 := by
    simp [acceptedRecord, ttlSeconds, httl]
  have hlive := accept_live cfg st T id u d hok
  obtain ⟨_, _, _, hd⟩ := accept_ok cfg st T id u d hok
  refine ⟨?_, ?_, ?_, ?_⟩
  · subst hd
    simp [ttlSeconds, httl]
  · intro ht
    apply fetch_live
    · apply sweeps_keep_live _ _ _ _ _ _ hlive
      intro s hs
      have := hpast s hs
      omega
    · omega
  · intro ht hs
    apply fetch_expired _ _ (acceptedRecord cfg T id u) u.stream.flatten
    · exact sweeps_keep_live _ _ _ _ (by rw [hexp]; exact hs) _ hlive
    · omega
  · intro _ hs
    have hnone := sweeps_drop_expired id (acceptedRecord cfg T id u) times
      (accept cfg st T id u).2 hlive.2.1 (by rw [hexp]; exact hs)
    simp [fetch, hnone]

/-- Witness for C2: "helloworld" uploaded at time 0 with a TTL of one hour,
one sweep at time 1800: served at 3599, `Gone` at 3600. -/
theorem fetch_respects_ttl_witness :
    (sampleConfig.FileExpiryHours = 1 ∧
      (accept sampleConfig emptyStore 0 "f1" helloUpload).1 =
        Except.ok { id := "f1", originalName := "hello.txt", sizeBytes := 10,
                    expiresAt := 3600, downloadURL := "http://localhost:3000/f1" } ∧
      ∀ s ∈ [(1800 : Int)], s ≤ 3599) ∧
    fetch (sweeps (accept sampleConfig emptyStore 0 "f1" helloUpload).2 [1800]) 3599 "f1" =
      Except.ok (acceptedRecord sampleConfig 0 "f1" helloUpload, helloworld) ∧
    fetch (sweeps (accept sampleConfig emptyStore 0 "f1" helloUpload).2 [1800]) 3600 "f1" =
      Except.error EngineError.Gone :=
  ⟨⟨rfl, rfl, by decide⟩,
    (fetch_respects_ttl sampleConfig emptyStore 0 "f1" helloUpload _ [1800] 3599 rfl rfl
      (by decide)).2.1 (by decide),
    (fetch_respects_ttl sampleConfig emptyStore 0 "f1" helloUpload _ [1800] 3600 rfl rfl
      (by decide)).2.2.1 (by decide) (by decide)⟩

/-- Counterexample to C2 as stated: "helloworld" is uploaded at time 0 with a
TTL of one hour, a sweep runs at time 3600, and `fetch` at time 3600 reports
`NotFound`, not `Gone`. -/
theorem fetch_after_sweep_not_gone :
    sampleConfig.FileExpiryHours = 1 ∧
    (accept sampleConfig emptyStore 0 "f1" helloUpload).1 =
      Except.ok { id := "f1", originalName := "hello.txt", sizeBytes := 10,
                  expiresAt := 3600, downloadURL := "http://localhost:3000/f1" } ∧
    (0 : Int) + 3600 ≤ 3600 ∧
    fetch (sweep (accept sampleConfig emptyStore 0 "f1" helloUpload).2 3600) 3600 "f1" =
      Except.error EngineError.NotFound ∧
    fetch (sweep (accept sampleConfig emptyStore 0 "f1" helloUpload).2 3600) 3600 "f1" ≠
      Except.error EngineError.Gone := by
  have h : fetch (sweep (accept sampleConfig emptyStore 0 "f1" helloUpload).2 3600) 3600 "f1" =
      Except.error EngineError.NotFound := rfl
  refine ⟨rfl, rfl, by decide, h, ?_⟩
  rw [h]
  intro h'
  cases h'

end Tempfile
